import Mathlib

/-!
Shallow embedding of the cursor-based pagination and aggregation loops of the
project-api-metrics scripts, together with theorems checking the spec's
claims about them.

The scripts share one loop shape: issue a paged GraphQL query, append the
page's records to an accumulating dataframe, read `hasNextPage`/`endCursor`
(or `hasPreviousPage`/`startCursor`) from the response, and stop on
exhaustion, a page cap, or an exception.  We embed each script's loop over an
explicit list of page responses (the response the network would deliver on
the i-th fetch), where `none` models the `except:` path (network error,
non-2xx body, malformed JSON — anything that raises inside the `try:`).
A result of `none` for a whole run means the loop asked for a page beyond
the supplied response sequence, i.e. the supplied sequence does not decide
the run.  For claims about call counts and non-termination we additionally
embed the same loop keyed by fetch-call index (with an explicit call
counter) and keyed by cursor (with explicit fuel).
-/

namespace Metrics

/-- Terminal status of one pagination run, as reported by the scripts
(`status = "OK"` / `status = "Error"` in `get_pr_data` and `get_fork_data`;
for `get_repo_data` the error branch is observable as the printed
`ERROR Cannot process` message). -/
inductive Status where
  | ok
  | error
  deriving DecidableEq

/-- One successful page response as the scripts read it: the list of nodes
turned into records, the `hasNextPage` (or `hasPreviousPage`) flag, and the
`endCursor` (or `startCursor`) used for the next request. -/
structure Page (α : Type) where
  records : List α
  hasMore : Bool
  endCursor : Option String
  deriving DecidableEq

/-- What one fetch attempt produces: `some page` when the request, JSON
decode and key lookups all succeed, `none` when anything raises. -/
abbrev FetchResult (α : Type) := Option (Page α)

/-- Embedding of the inner `while has_next_page:` loop of
`repo_activity.get_repo_data` (src/scripts/repo_activity.py lines 141-158)
for a single org, consuming the supplied response sequence:
on exception (`none`) the `except:` branch sets `has_next_page = False` and
the partial records are kept with status `error`; on success the page's
records are appended and the loop continues iff `hasNextPage`. -/
def repoOrgLoop : List (FetchResult α) → List α → Option (List α × Status)
  | [], _ => none
  | none :: _, acc => some (acc, Status.error)
  | some p :: rest, acc =>
    if p.hasMore then repoOrgLoop rest (acc ++ p.records)
    else some (acc ++ p.records, Status.ok)

/-- One org's pagination run of `repo_activity.get_repo_data`, started with
the empty dataframe. -/
def getRepoOrg (rs : List (FetchResult α)) : Option (List α × Status) :=
  repoOrgLoop rs []

/-- Embedding of the outer `for org_name in org_list:` driver of
`repo_activity.get_repo_data` (src/scripts/repo_activity.py lines 135-159):
one pagination run per org, all records appended into the one shared
dataframe, and the per-org outcome (ok, or the printed error) collected in
order.  The driver continues to the next org whatever the previous org's
outcome was. -/
def get_repo_data : List (List (FetchResult α)) → Option (List α × List Status)
  | [] => some ([], [])
  | org :: orgs =>
    match repoOrgLoop org [], get_repo_data orgs with
    | some (recs, st), some (rest, sts) => some (recs ++ rest, st :: sts)
    | _, _ => none

/-- One successful forks page as `sunset.get_fork_data` reads it: the fork
nodes, the repository's `totalCount` of forks and `stargazerCount` (both
re-read on every page), and the page info. -/
structure ForkPage (α : Type) where
  records : List α
  totalCount : Nat
  stargazerCount : Nat
  hasNextPage : Bool
  endCursor : Option String
  deriving DecidableEq

/-- Embedding of the `while has_next_page:` loop of `sunset.get_fork_data`
(src/scripts/sunset.py lines 137-161).  On a successful page the records are
appended, `num_forks`/`num_stars` are overwritten with this page's counts and
`status = "OK"`; on exception the `except:` branch sets
`num_forks = num_stars = None` and `status = "Error"` and the loop exits,
keeping the records accumulated so far. -/
def getForkLoop :
    List (Option (ForkPage α)) → List α →
    Option (List α × Option Nat × Option Nat × Status)
  | [], _ => none
  | none :: _, acc => some (acc, none, none, Status.error)
  | some p :: rest, acc =>
    if p.hasNextPage then getForkLoop rest (acc ++ p.records)
    else some (acc ++ p.records, some p.totalCount, some p.stargazerCount, Status.ok)

/-- The run of `sunset.get_fork_data`, returning
(`repo_info_df`, `num_forks`, `num_stars`, `status`). -/
def get_fork_data (rs : List (Option (ForkPage α))) :
    Option (List α × Option Nat × Option Nat × Status) :=
  getForkLoop rs []

/-- Embedding of the `while has_next_page:` loop of
`commits_people.get_data` (src/scripts/commits_people.py lines 114-131).
This loop has no `try`/`except`: a failing fetch raises out of the function
(`Except.error ()`), discarding the records accumulated so far; only a
normally exhausted run returns the dataframe (`Except.ok`). -/
def getDataLoop : List (FetchResult α) → List α → Option (Except Unit (List α))
  | [], _ => none
  | none :: _, _ => some (Except.error ())
  | some p :: rest, acc =>
    if p.hasMore then getDataLoop rest (acc ++ p.records)
    else some (Except.ok (acc ++ p.records))

/-- The run of `commits_people.get_data`, started with the empty
dataframe. -/
def get_data (rs : List (FetchResult α)) : Option (Except Unit (List α)) :=
  getDataLoop rs []

/-- Observable outcome of `pr_activity.get_pr_data` at its call site:
either the `return repo_info_df, status` pair, or an exception escaping the
function.  `raisesUnboundLocal` is the `UnboundLocalError` Python raises at
`return` when the loop body never assigned `status`; `raisesConfigError`
models the spec's `ConfigurationError` (§7) so that claims about it can be
stated — the source defines no such exception and never produces it. -/
inductive PrOutcome (α : Type) where
  | ret (records : List α) (st : Status)
  | raisesUnboundLocal
  | raisesConfigError
  deriving DecidableEq

/-- Embedding of the `while has_previous_page and i <= num_pages:` loop of
`pr_activity.get_pr_data` (src/scripts/pr_activity.py lines 114-141).
`m` is `num_pages` (an `int`, possibly non-positive), `i` the page counter
starting at 1, `st` the `status` local (`none` before its first assignment),
and the returned `Nat` counts the fetch attempts made.  Each iteration makes
one fetch: on exception `status = "Error"`, `has_previous_page = False` and
the loop exits returning the partial records; on success the records are
appended and `status = "OK"`.  When the loop condition fails, the function
returns `(repo_info_df, status)` — an `UnboundLocalError` if `status` was
never assigned. -/
def getPrLoop (m : Int) :
    List (FetchResult α) → Int → List α → Option Status → Nat →
    Option (PrOutcome α × Nat)
  | rs, i, acc, st, calls =>
    if i ≤ m then
      match rs with
      | [] => none
      | none :: _ => some (PrOutcome.ret acc Status.error, calls + 1)
      | some p :: rest =>
        if p.hasMore then
          getPrLoop m rest (i + 1) (acc ++ p.records) (some Status.ok) (calls + 1)
        else some (PrOutcome.ret (acc ++ p.records) Status.ok, calls + 1)
    else
      some ((match st with
             | some s => PrOutcome.ret acc s
             | none => PrOutcome.raisesUnboundLocal), calls)

/-- The run of `pr_activity.get_pr_data` with `num_pages = m`, paired with
the number of fetch attempts it made. -/
def get_pr_data (m : Int) (rs : List (FetchResult α)) :
    Option (PrOutcome α × Nat) :=
  getPrLoop m rs 1 [] none 0

/-- The `sunset.get_fork_data` while-loop keyed by cursor, with explicit
fuel: `fetch` maps the cursor sent (`none` on the first request) to the
response, exactly as `make_query(after_cursor)` does; a result of `none`
means the loop was still running when the fuel ran out, so the run reaches
no terminal state within any given number of iterations. -/
def forkCursorLoop (fetch : Option String → FetchResult α) :
    Nat → Option String → List α → Option (List α × Status)
  | 0, _, _ => none
  | fuel + 1, cursor, acc =>
    match fetch cursor with
    | none => some (acc, Status.error)
    | some p =>
      if p.hasMore then forkCursorLoop fetch fuel p.endCursor (acc ++ p.records)
      else some (acc ++ p.records, Status.ok)

/-- A fetcher that always succeeds with an empty page, `has_more = true`,
and a `next_cursor` equal to the cursor just used — the non-advancing
cursor scenario of the spec. -/
def nonAdvancingFetch (cursor : Option String) : FetchResult Nat :=
  some { records := [], hasMore := true, endCursor := cursor }

/-- The `sunset.get_fork_data` while-loop keyed by fetch-call index, with
explicit fuel: the j-th fetch attempt (0-based) receives response
`fetch j`, and the third component of the result is the total number of
fetch attempts made.  Each loop iteration issues exactly one fetch, and the
`except:` branch exits the loop, so this instruments the same loop as
`getForkLoop` for call-count claims. -/
def forkCallLoop (fetch : Nat → FetchResult α) :
    Nat → Nat → List α → Option (List α × Status × Nat)
  | 0, _, _ => none
  | fuel + 1, j, acc =>
    match fetch j with
    | none => some (acc, Status.error, j + 1)
    | some p =>
      if p.hasMore then forkCallLoop fetch fuel (j + 1) (acc ++ p.records)
      else some (acc ++ p.records, Status.ok, j + 1)

/-- A full run of the call-indexed loop, starting at call 0 with the empty
dataframe. -/
def forkCallRun (fetch : Nat → FetchResult α) (fuel : Nat) :
    Option (List α × Status × Nat) :=
  forkCallLoop fetch fuel 0 []

/-- Outcome of the `criticality_score` subprocess as
`common_functions.get_criticality` observes it: either `Popen`/`communicate`
raises, or it yields decoded standard output together with `err` (which the
code tests with `if not err:`). -/
inductive SubprocResult where
  | raises
  | output (out : String) (err : Option String)

/-- Python truthiness test `not err` for the captured error stream:
true when `err` is `None` or empty. -/
def errFalsy : Option String → Bool
  | none => true
  | some s => s.isEmpty

/-- Python's `str.rstrip()`: remove trailing whitespace. -/
def rstrip (s : String) : String :=
  ((s.data.reverse.dropWhile Char.isWhitespace).reverse).asString

/-- Helper for `splitComma`: walk the characters, cutting a new field at
every comma, like Python's `str.split(',')`. -/
def splitCommaAux : List Char → List Char → List String
  | [], cur => [cur.reverse.asString]
  | c :: rest, cur =>
    if c = ',' then cur.reverse.asString :: splitCommaAux rest []
    else splitCommaAux rest (c :: cur)

/-- Python's `csv_str.split(',')`: the comma-separated fields of a string
(one field, possibly empty, more than there are commas). -/
def splitComma (s : String) : List String :=
  splitCommaAux s.data []

/-- Embedding of `common_functions.get_criticality`
(src/scripts/common_functions.py lines 117-164): on subprocess exception
both results are `None`; with error output present both are `None`; else the
output is split on commas and `items[25]` / `items[26].rstrip()` are
returned — an index beyond the list raises `IndexError`, caught by the
`except:` which sets both to `None`. -/
def get_criticality (r : SubprocResult) : Option String × Option String :=
  match r with
  | SubprocResult.raises => (none, none)
  | SubprocResult.output out err =>
    if errFalsy err then
      let items := splitComma out
      if 26 < items.length then
        (some (items.getD 25 ""), some (rstrip (items.getD 26 "")))
      else (none, none)
    else (none, none)

/-! ### Helper lemmas about the loops -/

/-- When every leading page reports more data and the final page does not,
the `repo_activity` single-org loop returns all records appended in arrival
order with status ok. -/
lemma repoOrgLoop_exhaust (ps : List (Page α)) (plast : Page α)
    (hps : ∀ p ∈ ps, p.hasMore = true) (hlast : plast.hasMore = false) :
    ∀ acc : List α,
      repoOrgLoop ((ps ++ [plast]).map some) acc =
        some (acc ++ ((ps ++ [plast]).map Page.records).flatten, Status.ok) := by
  induction ps with
  | nil =>
    intro acc
    simp [repoOrgLoop, hlast]
  | cons p ps ih =>
    intro acc
    have hp : p.hasMore = true := hps p (by simp)
    have ih' := ih (fun q hq => hps q (by simp [hq])) (acc ++ p.records)
    simp only [List.cons_append, List.map_cons, repoOrgLoop, hp, if_true, List.append_eq]
    rw [ih']
    simp [List.append_assoc]

/-- When every supplied page reports more data and the next fetch fails, the
`sunset.get_fork_data` loop returns the accumulated records with both counts
reset to `None` and status error; responses after the failure are never
consumed. -/
lemma getForkLoop_fail (ps : List (ForkPage α))
    (hps : ∀ p ∈ ps, p.hasNextPage = true) :
    ∀ (tail : List (Option (ForkPage α))) (acc : List α),
      getForkLoop (ps.map some ++ none :: tail) acc =
        some (acc ++ (ps.map ForkPage.records).flatten, none, none, Status.error) := by
  induction ps with
  | nil =>
    intro tail acc
    simp [getForkLoop]
  | cons p ps ih =>
    intro tail acc
    have hp : p.hasNextPage = true := hps p (by simp)
    have ih' := ih (fun q hq => hps q (by simp [hq])) tail (acc ++ p.records)
    simp only [List.map_cons, List.cons_append, getForkLoop, hp, if_true, List.append_eq]
    rw [ih']
    simp [List.append_assoc]

/-- When every supplied page reports more data and the next fetch fails, the
`commits_people.get_data` loop propagates the exception, discarding the
accumulated records. -/
lemma getDataLoop_fail (ps : List (Page α))
    (hps : ∀ p ∈ ps, p.hasMore = true) :
    ∀ (tail : List (FetchResult α)) (acc : List α),
      getDataLoop (ps.map some ++ none :: tail) acc = some (Except.error ()) := by
  induction ps with
  | nil =>
    intro tail acc
    simp [getDataLoop]
  | cons p ps ih =>
    intro tail acc
    have hp : p.hasMore = true := hps p (by simp)
    simp only [List.map_cons, List.cons_append, getDataLoop, hp, if_true, List.append_eq]
    exact ih (fun q hq => hps q (by simp [hq])) tail (acc ++ p.records)

/-- Unfolding equation for `getPrLoop` (it is defined by a single
catch-all equation, restated here for rewriting). -/
lemma getPrLoop_eq (m : Int) (rs : List (FetchResult α)) (i : Int)
    (acc : List α) (st : Option Status) (calls : Nat) :
    getPrLoop m rs i acc st calls =
      if i ≤ m then
        match rs with
        | [] => none
        | none :: _ => some (PrOutcome.ret acc Status.error, calls + 1)
        | some p :: rest =>
          if p.hasMore then
            getPrLoop m rest (i + 1) (acc ++ p.records) (some Status.ok) (calls + 1)
          else some (PrOutcome.ret (acc ++ p.records) Status.ok, calls + 1)
      else
        some ((match st with
               | some s => PrOutcome.ret acc s
               | none => PrOutcome.raisesUnboundLocal), calls) := by
  rw [getPrLoop.eq_def]

/-- When the page cap leaves room for all pages (entry counter `i` plus the
number of leading pages stays within `m`), the `get_pr_data` loop consumes
every page, ending on the final page with `hasMore = false`, and returns all
records with status ok, having fetched once per page. -/
lemma getPrLoop_exhaust (m : Int) (ps : List (Page α)) (plast : Page α)
    (hps : ∀ p ∈ ps, p.hasMore = true) (hlast : plast.hasMore = false) :
    ∀ (i : Int) (acc : List α) (st : Option Status) (calls : Nat),
      i + ps.length ≤ m →
      getPrLoop m ((ps ++ [plast]).map some) i acc st calls =
        some (PrOutcome.ret (acc ++ ((ps ++ [plast]).map Page.records).flatten)
                Status.ok,
              calls + ps.length + 1) := by
  induction ps with
  | nil =>
    intro i acc st calls hi
    have hile : i ≤ m := by simpa using hi
    rw [getPrLoop_eq]
    simp [hile, hlast]
  | cons p ps ih =>
    intro i acc st calls hi
    have hile : i ≤ m := by
      have := hi
      simp only [List.length_cons] at this
      omega
    have hp : p.hasMore = true := hps p (by simp)
    rw [getPrLoop_eq]
    simp only [List.cons_append, List.map_cons, hile, if_true, hp]
    have ih' := ih (fun q hq => hps q (by simp [hq])) (i + 1) (acc ++ p.records)
      (some Status.ok) (calls + 1)
      (by simp only [List.length_cons] at hi; push_cast at hi ⊢; omega)
    rw [ih']
    simp [List.append_assoc]
    omega

/-- When `m ≥ 1` pages each report more data, the `get_pr_data` loop entered
with counter `i` such that `i + (number of pages) = m + 1` consumes exactly
those pages, stops because the counter exceeds the cap, and returns their
records with the status ok assigned by the last successful iteration.
Responses beyond the cap are never consumed. -/
lemma getPrLoop_cap (m : Int) (ps : List (Page α))
    (hps : ∀ p ∈ ps, p.hasMore = true) :
    ∀ (tail : List (FetchResult α)) (i : Int) (acc : List α)
      (st : Option Status) (calls : Nat),
      ps ≠ [] → i + ps.length = m + 1 →
      getPrLoop m (ps.map some ++ tail) i acc st calls =
        some (PrOutcome.ret (acc ++ (ps.map Page.records).flatten) Status.ok,
              calls + ps.length) := by
  induction ps with
  | nil => simp
  | cons p ps ih =>
    intro tail i acc st calls _ hi
    have hile : i ≤ m := by
      simp only [List.length_cons] at hi
      push_cast at hi
      omega
    have hp : p.hasMore = true := hps p (by simp)
    rw [getPrLoop_eq]
    simp only [List.map_cons, List.cons_append, hile, if_true, hp]
    by_cases hnil : ps = []
    · subst hnil
      rw [getPrLoop_eq]
      have hgt : ¬ (i + 1 ≤ m) := by
        simp only [List.length_cons, List.length_nil] at hi
        push_cast at hi
        omega
      simp [hgt]
    · have ih' := ih (fun q hq => hps q (by simp [hq])) tail (i + 1)
        (acc ++ p.records) (some Status.ok) (calls + 1) hnil
        (by simp only [List.length_cons] at hi; push_cast at hi ⊢; omega)
      rw [ih']
      simp [List.append_assoc]
      omega

/-- In the call-indexed `sunset` loop, if calls `j, j+1, …, k-1` succeed
with more data and call `k` fails, then a run entered at call `j` with
enough fuel returns the records of pages `j..k-1`, status error, and a total
of `k + 1` fetch attempts: the failed page was attempted exactly once and
nothing is fetched after it. -/
lemma forkCallLoop_fail (fetch : Nat → FetchResult α) (pg : Nat → Page α)
    (k : Nat)
    (hok : ∀ i, i < k → fetch i = some (pg i))
    (hmore : ∀ i, i < k → (pg i).hasMore = true)
    (hfail : fetch k = none) :
    ∀ (fuel j : Nat) (acc : List α), j ≤ k → k - j < fuel →
      forkCallLoop fetch fuel j acc =
        some (acc ++ ((List.range' j (k - j)).map fun i => (pg i).records).flatten,
              Status.error, k + 1) := by
  intro fuel
  induction fuel with
  | zero =>
    intro j acc hj hfuel
    omega
  | succ f ih =>
    intro j acc hj hfuel
    rcases Nat.eq_or_lt_of_le hj with rfl | hlt
    · simp [forkCallLoop, hfail]
    · have hfj : fetch j = some (pg j) := hok j hlt
      have hmj : (pg j).hasMore = true := hmore j hlt
      simp only [forkCallLoop, hfj, hmj, if_true]
      have ih' := ih (j + 1) (acc ++ (pg j).records) (by omega) (by omega)
      rw [ih']
      have hrange : List.range' j (k - j) = j :: List.range' (j + 1) (k - (j + 1)) := by
        have hkj : k - j = (k - (j + 1)) + 1 := by omega
        rw [hkj, List.range'_succ]
      rw [hrange]
      simp [List.append_assoc]

/-! ### Claim theorems -/

/-- C1: for every sequence of successful pages P1..Pn where every page
before the last reports has_more = true and the last reports
has_more = false, the pagination run returns the concatenation of each
page's records in arrival order (records within a page in response order)
with terminal status ok — unconditionally for the uncapped run of
`repo_activity.get_repo_data`, and for the capped run of
`pr_activity.get_pr_data` whenever the page cap admits all n pages (the
case where the cap bites is claim C5). -/
theorem C1_exhaustion_returns_concat_ok (ps : List (Page α)) (plast : Page α)
    (hps : ∀ p ∈ ps, p.hasMore = true) (hlast : plast.hasMore = false) :
    getRepoOrg ((ps ++ [plast]).map some) =
      some (((ps ++ [plast]).map Page.records).flatten, Status.ok)
    ∧ ∀ m : Int, (ps.length : Int) + 1 ≤ m →
        get_pr_data m ((ps ++ [plast]).map some) =
          some (PrOutcome.ret ((ps ++ [plast]).map Page.records).flatten Status.ok,
                ps.length + 1) := by
  constructor
  · simpa [getRepoOrg] using repoOrgLoop_exhaust ps plast hps hlast []
  · intro m hm
    have h := getPrLoop_exhaust m ps plast hps hlast 1 [] none 0 (by omega)
    simpa [get_pr_data] using h

/-- Witness for C1: two pages carrying records [1] and [2]. -/
theorem C1_witness :
    getRepoOrg
        [some ({ records := [1], hasMore := true, endCursor := some "a" } : Page Nat),
         some { records := [2], hasMore := false, endCursor := none }] =
      some ([1, 2], Status.ok)
    ∧ get_pr_data 5
        [some ({ records := [1], hasMore := true, endCursor := some "a" } : Page Nat),
         some { records := [2], hasMore := false, endCursor := none }] =
      some (PrOutcome.ret [1, 2] Status.ok, 2) := by
  have h := C1_exhaustion_returns_concat_ok
    [({ records := [1], hasMore := true, endCursor := some "a" } : Page Nat)]
    { records := [2], hasMore := false, endCursor := none }
    (by decide) (by decide)
  exact ⟨by simpa using h.1, by simpa using h.2 5 (by norm_num)⟩

/-- C2 counterexample: in `commits_people.get_data` a failure at page 2
after a successful page 1 carrying records [1, 2] does not return those
records with status error — the exception propagates out of the function
(`Except.error ()`), so the accumulated records are dropped. -/
theorem C2_counterexample :
    get_data [some ({ records := [1, 2], hasMore := true, endCursor := some "c1" } :
                Page Nat), none] =
      some (Except.error ())
    ∧ get_data [some ({ records := [1, 2], hasMore := true, endCursor := some "c1" } :
                Page Nat), none] ≠
      some (Except.ok [1, 2]) := by
  constructor
  · rfl
  · intro h
    simp [get_data, getDataLoop] at h

/-- C2 (amended): when page k fails after successful pages 1..k-1, the
paginators with a per-page exception handler (here `sunset.get_fork_data`)
return exactly the concatenation of pages 1..k-1's records with status
error, consuming nothing after the failed page, while
`commits_people.get_data` — whose loop has no handler — propagates the
exception and returns no records at all. -/
theorem C2_amended_partial_records (psF : List (ForkPage α)) (ps : List (Page α))
    (tailF : List (Option (ForkPage α))) (tail : List (FetchResult α))
    (hF : ∀ p ∈ psF, p.hasNextPage = true) (h : ∀ p ∈ ps, p.hasMore = true) :
    get_fork_data (psF.map some ++ none :: tailF) =
      some ((psF.map ForkPage.records).flatten, none, none, Status.error)
    ∧ get_data (ps.map some ++ none :: tail) = some (Except.error ()) := by
  constructor
  · simpa [get_fork_data] using getForkLoop_fail psF hF tailF []
  · simpa [get_data] using getDataLoop_fail ps h tail []

/-- Witness for the amended C2: one successful page before the failure in
each script. -/
theorem C2_amended_witness :
    get_fork_data
        [some ({ records := [5], totalCount := 10, stargazerCount := 3,
                 hasNextPage := true, endCursor := some "x" } : ForkPage Nat),
         none] =
      some ([5], none, none, Status.error)
    ∧ get_data [some ({ records := [1], hasMore := true, endCursor := some "y" } :
                  Page Nat), none] =
      some (Except.error ()) := by
  have h := C2_amended_partial_records
    [({ records := [5], totalCount := 10, stargazerCount := 3,
        hasNextPage := true, endCursor := some "x" } : ForkPage Nat)]
    [({ records := [1], hasMore := true, endCursor := some "y" } : Page Nat)]
    [] [] (by decide) (by decide)
  exact ⟨by simpa using h.1, by simpa using h.2⟩

/-- C3: with a fetcher that always succeeds with has_more = true and a
next_cursor equal to the cursor just used, the pagination loop never reaches
a terminal state, whatever fuel it is given — the source loops indefinitely
instead of terminating with status error as the claim requires (the spec
itself records that the source does not guard against this). -/
theorem C3_nonadvancing_cursor_never_terminates :
    ∀ (fuel : Nat) (cursor : Option String) (acc : List Nat),
      forkCursorLoop nonAdvancingFetch fuel cursor acc = none := by
  intro fuel
  induction fuel with
  | zero =>
    intro cursor acc
    rfl
  | succ f ih =>
    intro cursor acc
    simp only [forkCursorLoop, nonAdvancingFetch, if_true]
    simpa using ih cursor acc

/-- C4: the multi-item driver runs one pagination run per work item and
continues to the next item regardless of the previous item's status: with
work items [A, B, C] where every fetch for B fails, the driver yields
statuses ok, error, ok, the records of A followed by those of C (B
contributing its empty partial result), and C's contribution equals its
standalone pagination run, unaffected by B's failure. -/
theorem C4_driver_isolates_item_failure
    (as cs : List (Page α)) (alast clast : Page α)
    (ha : ∀ p ∈ as, p.hasMore = true) (halast : alast.hasMore = false)
    (hc : ∀ p ∈ cs, p.hasMore = true) (hclast : clast.hasMore = false) :
    get_repo_data [(as ++ [alast]).map some, [none], (cs ++ [clast]).map some] =
      some (((as ++ [alast]).map Page.records).flatten ++
              ((cs ++ [clast]).map Page.records).flatten,
            [Status.ok, Status.error, Status.ok])
    ∧ getRepoOrg ((cs ++ [clast]).map some) =
        some (((cs ++ [clast]).map Page.records).flatten, Status.ok) := by
  have hA := repoOrgLoop_exhaust as alast ha halast []
  have hC := repoOrgLoop_exhaust cs clast hc hclast []
  constructor
  · simp only [get_repo_data]
    rw [hA, hC]
    simp [repoOrgLoop]
  · simpa [getRepoOrg] using hC

/-- Witness for C4: A's single page carries [1], B's only fetch fails, C's
single page carries [3]. -/
theorem C4_witness :
    get_repo_data
        [[some ({ records := [1], hasMore := false, endCursor := none } : Page Nat)],
         [none],
         [some ({ records := [3], hasMore := false, endCursor := none } : Page Nat)]] =
      some ([1, 3], [Status.ok, Status.error, Status.ok])
    ∧ getRepoOrg
        [some ({ records := [3], hasMore := false, endCursor := none } : Page Nat)] =
      some ([3], Status.ok) := by
  have h := C4_driver_isolates_item_failure
    ([] : List (Page Nat)) ([] : List (Page Nat))
    { records := [1], hasMore := false, endCursor := none }
    { records := [3], hasMore := false, endCursor := none }
    (by decide) (by decide) (by decide) (by decide)
  exact ⟨by simpa using h.1, by simpa using h.2⟩

/-- C5: with max_pages = m set (m = the number of supplied leading pages,
each reporting more data, so exhaustion would require more than m pages),
the run of `pr_activity.get_pr_data` stops after exactly m successful page
fetches with terminal status ok — sampling semantics, not an error — and
never consults any response after the m-th. -/
theorem C5_page_cap_sampling_ok (ps : List (Page α))
    (hne : ps ≠ []) (hps : ∀ p ∈ ps, p.hasMore = true)
    (tail : List (FetchResult α)) :
    get_pr_data (ps.length : Int) (ps.map some ++ tail) =
      some (PrOutcome.ret (ps.map Page.records).flatten Status.ok, ps.length) := by
  have h := getPrLoop_cap (ps.length : Int) ps hps tail 1 [] none 0 hne (by omega)
  simpa [get_pr_data] using h

/-- Witness for C5: cap 2, three available pages; the third is never
fetched. -/
theorem C5_witness :
    get_pr_data 2
        [some ({ records := [1], hasMore := true, endCursor := some "a" } : Page Nat),
         some { records := [2], hasMore := true, endCursor := some "b" },
         some { records := [9], hasMore := true, endCursor := some "c" }] =
      some (PrOutcome.ret [1, 2] Status.ok, 2) := by
  have h := C5_page_cap_sampling_ok
    [({ records := [1], hasMore := true, endCursor := some "a" } : Page Nat),
     { records := [2], hasMore := true, endCursor := some "b" }]
    (by decide) (by decide)
    [some { records := [9], hasMore := true, endCursor := some "c" }]
  simpa using h

/-- C6 counterexample: at the invalid parameter num_pages = 0 the run does
not fail with the spec's ConfigurationError: the observable outcome of
`pr_activity.get_pr_data` is the UnboundLocalError raised at its return
statement (after zero fetches), which is a different failure. -/
theorem C6_counterexample :
    get_pr_data 0 ([] : List (FetchResult Nat)) =
      some (PrOutcome.raisesUnboundLocal, 0)
    ∧ (PrOutcome.raisesUnboundLocal : PrOutcome Nat) ≠
        PrOutcome.raisesConfigError := by
  constructor
  · rfl
  · intro h
    cases h

/-- C6 (amended): `pr_activity.get_pr_data` performs no parameter
validation; for num_pages < 1 it does fail before any network activity
(zero fetch attempts) and aborts the run, but with an UnboundLocalError
escaping the function, not with a ConfigurationError. -/
theorem C6_amended_no_validation (n : Int) (rs : List (FetchResult α))
    (h : n < 1) :
    get_pr_data n rs = some (PrOutcome.raisesUnboundLocal, 0)
    ∧ get_pr_data n rs ≠ some (PrOutcome.raisesConfigError, 0) := by
  have hle : ¬ ((1 : Int) ≤ n) := by omega
  have heq : get_pr_data n rs = some (PrOutcome.raisesUnboundLocal, 0) := by
    show getPrLoop n rs 1 [] none 0 = _
    rw [getPrLoop_eq]
    simp [hle]
  refine ⟨heq, ?_⟩
  rw [heq]
  simp

/-- Witness for the amended C6 at num_pages = -1. -/
theorem C6_amended_witness :
    get_pr_data (-1) ([none] : List (FetchResult Nat)) =
      some (PrOutcome.raisesUnboundLocal, 0)
    ∧ get_pr_data (-1) ([none] : List (FetchResult Nat)) ≠
        some (PrOutcome.raisesConfigError, 0) :=
  C6_amended_no_validation (-1) [none] (by norm_num)

/-- C7: the run calls fetch_page at most once per page: when calls 0..k-1
succeed with more data and call k fails, a run with enough fuel makes
exactly k + 1 fetch attempts in total — the failed page is attempted once
and is never re-attempted, and no further fetch happens for that work
item. -/
theorem C7_no_retry_after_failure (fetch : Nat → FetchResult α)
    (pg : Nat → Page α) (k fuel : Nat)
    (hok : ∀ i, i < k → fetch i = some (pg i))
    (hmore : ∀ i, i < k → (pg i).hasMore = true)
    (hfail : fetch k = none) (hfuel : k < fuel) :
    forkCallRun fetch fuel =
      some (((List.range k).map fun i => (pg i).records).flatten,
            Status.error, k + 1) := by
  have h := forkCallLoop_fail fetch pg k hok hmore hfail fuel 0 []
    (by omega) (by omega)
  simpa [forkCallRun, List.range_eq_range'] using h

/-- Witness for C7: call 0 succeeds with more data, call 1 fails; exactly
two fetch attempts are made. -/
theorem C7_witness :
    forkCallRun
      (fun i => if i = 0 then
          some ({ records := [7], hasMore := true, endCursor := some "a" } : Page Nat)
        else none) 2 =
      some ([7], Status.error, 2) := by
  have h := C7_no_retry_after_failure
    (fun i => if i = 0 then
        some ({ records := [7], hasMore := true, endCursor := some "a" } : Page Nat)
      else none)
    (fun _ => { records := [7], hasMore := true, endCursor := some "a" })
    1 2 (by decide) (by decide) (by decide) (by decide)
  simpa using h

/-- C8: for every call of get_pr_data with num_pages < 1 the page loop body
never executes (zero fetch attempts, whatever responses were available), the
status local is never assigned, and the function raises an unbound-local
error instead of returning a (dataframe, status) pair. -/
theorem C8_nonpositive_num_pages_unbound_local (n : Int)
    (rs : List (FetchResult α)) (h : n < 1) :
    get_pr_data n rs = some (PrOutcome.raisesUnboundLocal, 0)
    ∧ ∀ (recs : List α) (st : Status),
        get_pr_data n rs ≠ some (PrOutcome.ret recs st, 0) := by
  have hle : ¬ ((1 : Int) ≤ n) := by omega
  have heq : get_pr_data n rs = some (PrOutcome.raisesUnboundLocal, 0) := by
    show getPrLoop n rs 1 [] none 0 = _
    rw [getPrLoop_eq]
    simp [hle]
  refine ⟨heq, ?_⟩
  intro recs st
  rw [heq]
  simp

/-- Witness for C8 at num_pages = 0 with an available (never consulted)
response. -/
theorem C8_witness :
    get_pr_data 0
        ([some { records := [4], hasMore := false, endCursor := none }] :
          List (FetchResult Nat)) =
      some (PrOutcome.raisesUnboundLocal, 0)
    ∧ get_pr_data 0
        ([some { records := [4], hasMore := false, endCursor := none }] :
          List (FetchResult Nat)) ≠
      some (PrOutcome.ret [4] Status.ok, 0) := by
  have h := C8_nonpositive_num_pages_unbound_local 0
    ([some { records := [4], hasMore := false, endCursor := none }] :
      List (FetchResult Nat)) (by norm_num)
  exact ⟨h.1, h.2 [4] Status.ok⟩

/-- C9: whenever any page fetch of `sunset.get_fork_data` fails — including
a failure after successful pages, which did retrieve the fork and star
counts — the function returns num_forks = None and num_stars = None with
status Error, while the record dataframe accumulated from the earlier pages
is still returned. -/
theorem C9_fork_failure_resets_counts (ps : List (ForkPage α))
    (tail : List (Option (ForkPage α)))
    (h : ∀ p ∈ ps, p.hasNextPage = true) :
    get_fork_data (ps.map some ++ none :: tail) =
      some ((ps.map ForkPage.records).flatten, none, none, Status.error) := by
  simpa [get_fork_data] using getForkLoop_fail ps h tail []

/-- Witness for C9: page 1 reports 42 forks and 7 stars, then page 2 fails;
the counts come back as None even though they were retrieved. -/
theorem C9_witness :
    get_fork_data
        [some ({ records := [5], totalCount := 42, stargazerCount := 7,
                 hasNextPage := true, endCursor := some "x" } : ForkPage Nat),
         none] =
      some ([5], none, none, Status.error) := by
  have h := C9_fork_failure_resets_counts
    [({ records := [5], totalCount := 42, stargazerCount := 7,
        hasNextPage := true, endCursor := some "x" } : ForkPage Nat)]
    [] (by decide)
  simpa using h

/-- C10: get_criticality always returns a pair; when the scoring subprocess
raises, reports error output, or yields fewer than 27 comma-separated
fields, both components are None; on success the components are fields 25
and 26 (0-based) of the comma-split output, the second with trailing
whitespace stripped. -/
theorem C10_get_criticality_fields (out : String) (err : Option String) :
    get_criticality SubprocResult.raises = (none, none)
    ∧ (errFalsy err = false →
        get_criticality (SubprocResult.output out err) = (none, none))
    ∧ ((splitComma out).length < 27 →
        get_criticality (SubprocResult.output out err) = (none, none))
    ∧ (errFalsy err = true → 27 ≤ (splitComma out).length →
        get_criticality (SubprocResult.output out err) =
          (some ((splitComma out).getD 25 ""),
           some (rstrip ((splitComma out).getD 26 "")))) := by
  refine ⟨rfl, ?_, ?_, ?_⟩
  · intro he
    simp [get_criticality, he]
  · intro hlen
    have h26 : ¬ (26 < (splitComma out).length) := by omega
    by_cases he : errFalsy err <;> simp [get_criticality, he, h26]
  · intro he hlen
    have h26 : 26 < (splitComma out).length := by omega
    simp [get_criticality, he, h26]

/-- Witness for C10: a 27-field output whose last field has a trailing
space. -/
theorem C10_witness :
    get_criticality (SubprocResult.output
        "x,x,x,x,x,x,x,x,x,x,x,x,x,x,x,x,x,x,x,x,x,x,x,x,x,D,5 " none) =
      (some "D", some "5") := by
  have h := (C10_get_criticality_fields
    "x,x,x,x,x,x,x,x,x,x,x,x,x,x,x,x,x,x,x,x,x,x,x,x,x,D,5 " none).2.2.2
    rfl (by decide)
  rw [h]
  decide

end Metrics
